import Mathlib

/-!
Shallow embedding of the fulfillment combination search & ranking engine
from `src/routers/delivery.py` of `ai_prescription_app_skeleton`.

Monetary amounts and coordinates (decimal literals in the source) are
modelled as rationals; derived quantities flow through the reals because
the distance computation takes a square root.  The randomly generated
demo catalog of the source is a process-start value, so every definition
is parametrised by the list of shops.  The FastAPI endpoint is modelled
as a function into `Except`, the error carrying the HTTP status and
detail of the raised `HTTPException`.
-/

namespace Delivery

/-- A geocoordinate, as in the `UserLocation` model and shop `location` dicts. -/
structure Location where
  latitude : ℚ
  longitude : ℚ
deriving DecidableEq

/-- One inventory entry of a shop: `{"brand": ..., "price": ...}`. -/
structure InvEntry where
  brand : String
  price : ℚ
deriving DecidableEq

/-- A shop record of the catalog.  The Python inventory dict becomes an
association list from salt name to entry. -/
structure Shop where
  shop_id : String
  shop_name : String
  base_cost : ℚ
  location : Location
  inventory : List (String × InvEntry)
deriving DecidableEq

/-- The request body `DeliveryRequest` of the endpoint. -/
structure DeliveryRequest where
  prescription_salts : List String
  user_location : Location
  demand_factor : ℚ
  convenience_factor : Bool

/-- `calculate_distance_km(loc1, loc2)`: flat-earth Euclidean distance in
degrees scaled by 111. -/
noncomputable def calculate_distance_km (loc1 loc2 : Location) : ℝ :=
  Real.sqrt (((loc1.latitude : ℝ) - (loc2.latitude : ℝ)) ^ 2 +
      ((loc1.longitude : ℝ) - (loc2.longitude : ℝ)) ^ 2) * 111

/-- `calculate_delivery_cost(base_cost, distance_km, demand_factor)`. -/
def calculate_delivery_cost (base_cost distance_km demand_factor : ℝ) : ℝ :=
  base_cost + distance_km * 5 + demand_factor

/-- `itertools.combinations(l, r)`: all length-`r` subsequences of `l`, in
lexicographic order of positions. -/
def combos {α : Type} : Nat → List α → List (List α)
  | 0, _ => [[]]
  | _ + 1, [] => []
  | r + 1, x :: xs => ((combos r xs).map (fun c => x :: c)) ++ combos (r + 1) xs

/-- The union of inventory keys over a combination, mirroring the
`covered_salts` set built by the source (membership is what matters). -/
def comboCoveredSalts (combo : List Shop) : List String :=
  combo.flatMap (fun shop => shop.inventory.map (fun p => p.1))

/-- `get_fulfillment_combinations(prescription_salts)`: for every size
`r` in `range(1, len(shops)+1)`, keep the size-`r` combinations whose
unioned inventories contain every prescribed salt. -/
def get_fulfillment_combinations (shops : List Shop)
    (prescription_salts : List String) : List (List Shop) :=
  (List.range' 1 shops.length).flatMap (fun r =>
    (combos r shops).filter (fun combo =>
      prescription_salts.all (fun salt => (comboCoveredSalts combo).contains salt)))

/-- One reported item `{"salt": ..., "brand": ..., "price": ...}`. -/
structure FulfillmentItem where
  salt : String
  brand : String
  price : ℚ
deriving DecidableEq

/-- One entry of `fulfillment_details`: per-shop report with the 2-dp
rounded delivery cost. -/
structure FulfillmentDetail where
  shop_id : String
  shop_name : String
  delivery_cost : ℝ
  items : List FulfillmentItem

/-- One entry of `ranked_options`; `rank` and `priority_reason` are
attached after sorting (zero and empty string beforehand). -/
structure RankedOption where
  num_shops : Nat
  total_medicine_cost : ℝ
  total_delivery_cost : ℝ
  grand_total : ℝ
  fulfillment_details : List FulfillmentDetail
  rank : Nat
  priority_reason : String

/-- Python `round(x, 2)`: scale by 100, round to an integer, scale back. -/
noncomputable def round2 (x : ℝ) : ℝ := ((round (x * 100) : ℤ) : ℝ) / 100

/-- The `items` list built for one shop: iterate the prescription list in
order and keep the salts the shop stocks. -/
def shopItems (prescription_salts : List String) (shop : Shop) :
    List FulfillmentItem :=
  prescription_salts.filterMap (fun salt =>
    (shop.inventory.lookup salt).map (fun e => ⟨salt, e.brand, e.price⟩))

/-- The medicine cost contributed by one shop of a combination. -/
def shopMedicineCost (prescription_salts : List String) (shop : Shop) : ℚ :=
  ((shopItems prescription_salts shop).map (fun it => it.price)).sum

/-- The `total_medicine_cost` accumulator over a combination. -/
def comboMedicineCost (prescription_salts : List String)
    (combo : List Shop) : ℚ :=
  (combo.map (shopMedicineCost prescription_salts)).sum

/-- The unrounded delivery cost of one shop. -/
noncomputable def shopDeliveryCost (user_location : Location)
    (demand_factor : ℚ) (shop : Shop) : ℝ :=
  calculate_delivery_cost (shop.base_cost : ℝ)
    (calculate_distance_km shop.location user_location) (demand_factor : ℝ)

/-- The `total_delivery_cost` accumulator over a combination. -/
noncomputable def comboDeliveryCost (user_location : Location)
    (demand_factor : ℚ) (combo : List Shop) : ℝ :=
  (combo.map (shopDeliveryCost user_location demand_factor)).sum

/-- The priced record appended to `ranked_options` for one feasible
combination, before rank assignment. -/
noncomputable def priceCombo (prescription_salts : List String)
    (user_location : Location) (demand_factor : ℚ)
    (combo : List Shop) : RankedOption :=
  { num_shops := combo.length
    total_medicine_cost :=
      round2 ((comboMedicineCost prescription_salts combo : ℚ) : ℝ)
    total_delivery_cost :=
      round2 (comboDeliveryCost user_location demand_factor combo)
    grand_total :=
      round2 (((comboMedicineCost prescription_salts combo : ℚ) : ℝ) +
        comboDeliveryCost user_location demand_factor combo)
    fulfillment_details := combo.map (fun shop =>
      { shop_id := shop.shop_id
        shop_name := shop.shop_name
        delivery_cost :=
          round2 (shopDeliveryCost user_location demand_factor shop)
        items := shopItems prescription_salts shop })
    rank := 0
    priority_reason := "" }

/-- The Python sort key tuple `(num_shops, grand_total)` compared
lexicographically (tuple `<=` of Python). -/
def keyLE (a b : Nat × ℝ) : Prop :=
  a.1 < b.1 ∨ (a.1 = b.1 ∧ a.2 ≤ b.2)

noncomputable instance (a b : Nat × ℝ) : Decidable (keyLE a b) := by
  unfold keyLE
  infer_instance

/-- Boolean comparison used for the stable sort of ranked options. -/
noncomputable def optionLE (a b : RankedOption) : Bool :=
  decide (keyLE (a.num_shops, a.grand_total) (b.num_shops, b.grand_total))

/-- The rationale string selected by `convenience_factor`. -/
def reasonStr (convenience_factor : Bool) : String :=
  if convenience_factor then "Fewest shops + reasonable cost" else "Lowest cost"

/-- The post-sort `for i, option in enumerate(ranked_options)` loop:
attach `rank = i + 1` and the priority rationale. -/
def attachRanks (convenience_factor : Bool) : Nat → List RankedOption → List RankedOption
  | _, [] => []
  | i, o :: rest =>
    { o with rank := i + 1, priority_reason := reasonStr convenience_factor } ::
      attachRanks convenience_factor (i + 1) rest

/-- The success payload of the endpoint. -/
structure DeliveryResponse where
  msg : String
  prescription_salts : List String
  optimal_options_ranked : List RankedOption

/-- The priced options in enumeration order, before sorting. -/
noncomputable def pricedOptions (shops : List Shop) (request : DeliveryRequest) :
    List RankedOption :=
  (get_fulfillment_combinations shops request.prescription_salts).map
    (priceCombo request.prescription_salts request.user_location
      request.demand_factor)

/-- The priced options after the stable sort by `(num_shops, grand_total)`. -/
noncomputable def sortedOptions (shops : List Shop) (request : DeliveryRequest) :
    List RankedOption :=
  (pricedOptions shops request).mergeSort optionLE

/-- The `/delivery/calculate` endpoint body: search, 404 on empty result,
price, sort, rank, respond. -/
noncomputable def calculate_delivery (shops : List Shop)
    (request : DeliveryRequest) : Except (Nat × String) DeliveryResponse :=
  if get_fulfillment_combinations shops request.prescription_salts = [] then
    Except.error (404, "No shop combinations found to fulfill prescription.")
  else
    Except.ok
      { msg := "✅ Optimal fulfillment scenarios calculated and ranked."
        prescription_salts := request.prescription_salts
        optimal_options_ranked :=
          attachRanks request.convenience_factor 0 (sortedOptions shops request) }

/-- Options of a response, empty for the failure case. -/
def respOptions : Except (Nat × String) DeliveryResponse → List RankedOption
  | Except.ok r => r.optimal_options_ranked
  | Except.error _ => []

/-- Erase the rationale string of one option. -/
def stripReason (o : RankedOption) : RankedOption :=
  { o with priority_reason := "" }

/-- Erase every rationale string of a result, leaving all other data. -/
def stripReasons :
    Except (Nat × String) DeliveryResponse → Except (Nat × String) DeliveryResponse
  | Except.ok r =>
      Except.ok { r with
        optimal_options_ranked := r.optimal_options_ranked.map stripReason }
  | Except.error e => Except.error e

/-- Reset the fields attached after sorting, for comparisons that ignore
rank and rationale. -/
def stripMeta (o : RankedOption) : RankedOption :=
  { o with rank := 0, priority_reason := "" }

/-- The price a shop charges for a salt it stocks (zero when absent). -/
def shopSaltPrice (shop : Shop) (salt : String) : ℚ :=
  match shop.inventory.lookup salt with
  | some e => e.price
  | none => 0

/-- The total charged for one salt across a combination: once per
stocking shop. -/
def perSaltCharge (salt : String) (combo : List Shop) : ℚ :=
  ((combo.filter (fun shop => (shop.inventory.lookup salt).isSome)).map
    (fun shop => shopSaltPrice shop salt)).sum

/-! ## Characterization of the subset enumeration -/

theorem mem_combos {α : Type} (l : List α) :
    ∀ (r : Nat) (c : List α), c ∈ combos r l ↔ c.Sublist l ∧ c.length = r := by
  induction l with
  | nil =>
    intro r c
    cases r with
    | zero =>
      simp only [combos, List.mem_singleton, List.sublist_nil]
      constructor
      · rintro rfl
        exact ⟨rfl, rfl⟩
      · rintro ⟨rfl, -⟩
        rfl
    | succ r =>
      simp only [combos, List.not_mem_nil, false_iff, not_and, List.sublist_nil]
      rintro rfl
      simp
  | cons x xs ih =>
    intro r c
    cases r with
    | zero =>
      simp only [combos, List.mem_singleton]
      constructor
      · rintro rfl
        exact ⟨List.nil_sublist _, rfl⟩
      · rintro ⟨-, hl⟩
        exact (List.length_eq_zero.mp hl)
    | succ r =>
      simp only [combos, List.mem_append, List.mem_map, ih]
      rw [List.sublist_cons_iff]
      constructor
      · rintro (⟨c', ⟨hs, hlen⟩, rfl⟩ | ⟨hs, hlen⟩)
        · exact ⟨Or.inr ⟨c', rfl, hs⟩, by simp [hlen]⟩
        · exact ⟨Or.inl hs, hlen⟩
      · rintro ⟨h | ⟨c', rfl, hs⟩, hlen⟩
        · exact Or.inr ⟨h, hlen⟩
        · exact Or.inl ⟨c', ⟨hs, by simpa using hlen⟩, rfl⟩

/-- The coverage test of the source, as a proposition: every prescribed
salt lies in the union of the combination's inventory keys. -/
def Covers (combo : List Shop) (prescription_salts : List String) : Prop :=
  ∀ salt ∈ prescription_salts, salt ∈ comboCoveredSalts combo

theorem covers_bool_iff (combo : List Shop) (salts : List String) :
    (salts.all (fun salt => (comboCoveredSalts combo).contains salt) = true)
      ↔ Covers combo salts := by
  simp [List.all_eq_true, Covers]

theorem mem_get_fulfillment_combinations
    (shops : List Shop) (salts : List String) (c : List Shop) :
    c ∈ get_fulfillment_combinations shops salts
      ↔ c.Sublist shops ∧ c ≠ [] ∧ Covers c salts := by
  simp only [get_fulfillment_combinations, List.mem_flatMap, List.mem_filter,
    List.mem_range', mem_combos, covers_bool_iff]
  constructor
  · rintro ⟨r, ⟨i, hi, rfl⟩, ⟨hs, hlen⟩, hcov⟩
    refine ⟨hs, ?_, hcov⟩
    intro hnil
    subst hnil
    simp at hlen
    omega
  · rintro ⟨hs, hne, hcov⟩
    refine ⟨c.length, ⟨c.length - 1, ?_, ?_⟩, ⟨hs, rfl⟩, hcov⟩
    · have h1 : 1 ≤ c.length := by
        cases c with
        | nil => exact absurd rfl hne
        | cons a t => simp
      have h2 : c.length ≤ shops.length := hs.length_le
      omega
    · have h1 : 1 ≤ c.length := by
        cases c with
        | nil => exact absurd rfl hne
        | cons a t => simp
      omega

/-! ## Concrete fixtures for witnesses -/

/-- A fixed user location shared by the concrete test catalogs. -/
def locO : Location := { latitude := 28, longitude := 77 }

/-- Shop stocking only salt "A". -/
def shopA : Shop :=
  { shop_id := "S001", shop_name := "Vendor_1", base_cost := 1, location := locO,
    inventory := [("A", { brand := "BrandA1", price := 10 })] }

/-- Shop stocking only salt "B". -/
def shopB : Shop :=
  { shop_id := "S002", shop_name := "Vendor_2", base_cost := 2, location := locO,
    inventory := [("B", { brand := "BrandB2", price := 3 })] }

/-- Shop stocking both salts, cheaper than `shopA` for "A". -/
def shopAB : Shop :=
  { shop_id := "S003", shop_name := "Vendor_3", base_cost := 0, location := locO,
    inventory := [("A", { brand := "BrandA3", price := 4 }),
                  ("B", { brand := "BrandB3", price := 5 })] }

/-- Shop with a tiny base cost, stocking "A" for free; first of a pair
whose rounded delivery costs drop below the rounded sum. -/
def shopP1 : Shop :=
  { shop_id := "S004", shop_name := "Vendor_4", base_cost := 1/250, location := locO,
    inventory := [("A", { brand := "BrandA4", price := 0 })] }

/-- Second shop of the small-base-cost pair. -/
def shopP2 : Shop :=
  { shop_id := "S005", shop_name := "Vendor_5", base_cost := 1/250, location := locO,
    inventory := [("A", { brand := "BrandA5", price := 0 })] }

/-- A request for salt "A" from the shared location, zero surge. -/
def reqA : DeliveryRequest :=
  { prescription_salts := ["A"], user_location := locO, demand_factor := 0,
    convenience_factor := true }

/-! ## C1: exactness of the feasibility search -/

/-- C1: for every requirement list and catalog, `get_fulfillment_combinations`
returns exactly the non-empty supplier subsets whose unioned inventories
contain every required salt: membership in the result is equivalent to being
a non-empty sub-selection of the catalog that covers the requirement list. -/
theorem C1_fulfillment_combinations_exact
    (shops : List Shop) (salts : List String) (c : List Shop) :
    c ∈ get_fulfillment_combinations shops salts
      ↔ c.Sublist shops ∧ c ≠ [] ∧ ∀ salt ∈ salts, salt ∈ comboCoveredSalts c :=
  mem_get_fulfillment_combinations shops salts c

/-- Witness for C1 at a concrete catalog: the covering subset `[shopA, shopB]`
of the two-shop catalog is reported by the search. -/
theorem C1_fulfillment_combinations_exact_witness :
    [shopA, shopB] ∈ get_fulfillment_combinations [shopA, shopB] ["A", "B"] :=
  (C1_fulfillment_combinations_exact [shopA, shopB] ["A", "B"] [shopA, shopB]).mpr
    ⟨by decide, by decide, by decide⟩

/-! ## C2: double-counted medicine cost -/

theorem shopMedicineCost_eq (salts : List String) (shop : Shop) :
    shopMedicineCost salts shop =
      (salts.map (fun salt =>
        if (shop.inventory.lookup salt).isSome
        then shopSaltPrice shop salt else 0)).sum := by
  induction salts with
  | nil => rfl
  | cons s t ih =>
    cases h : shop.inventory.lookup s with
    | none =>
      simp only [shopMedicineCost, shopItems, List.filterMap_cons, h,
        Option.map_none'] at ih ⊢
      simp [ih, h, shopMedicineCost, shopItems]
    | some e =>
      simp only [shopMedicineCost, shopItems, List.filterMap_cons, h,
        Option.map_some'] at ih ⊢
      simp [ih, h, shopSaltPrice, shopMedicineCost, shopItems]

theorem perSaltCharge_eq (salt : String) (combo : List Shop) :
    perSaltCharge salt combo =
      (combo.map (fun shop =>
        if (shop.inventory.lookup salt).isSome
        then shopSaltPrice shop salt else 0)).sum := by
  induction combo with
  | nil => rfl
  | cons s t ih =>
    cases h : (s.inventory.lookup salt).isSome with
    | false => simp [perSaltCharge, List.filter_cons, h] at ih ⊢; simp [ih]
    | true => simp [perSaltCharge, List.filter_cons, h] at ih ⊢; simp [ih]

theorem sum_map_swap {α β M : Type} [AddCommMonoid M]
    (l1 : List α) (l2 : List β) (f : α → β → M) :
    (l1.map (fun a => (l2.map (f a)).sum)).sum
      = (l2.map (fun b => (l1.map (fun a => f a b)).sum)).sum := by
  induction l1 with
  | nil => simp
  | cons a t ih => simp [ih, List.sum_map_add]

theorem comboMedicineCost_eq_perSaltCharge
    (salts : List String) (combo : List Shop) :
    comboMedicineCost salts combo =
      (salts.map (fun salt => perSaltCharge salt combo)).sum := by
  have h1 : comboMedicineCost salts combo =
      (combo.map (fun shop => (salts.map (fun salt =>
        if (shop.inventory.lookup salt).isSome
        then shopSaltPrice shop salt else 0)).sum)).sum := by
    simp only [comboMedicineCost]
    congr 1
    apply List.map_congr_left
    intro shop _
    exact shopMedicineCost_eq salts shop
  rw [h1, sum_map_swap]
  congr 1
  apply List.map_congr_left
  intro salt _
  exact (perSaltCharge_eq salt combo).symm

/-- C2: the combination's total medicine cost charges the unit price from
every supplier of the combination stocking a required item: it equals the
sum, over the requirement list, of the per-salt charge that sums the price
of every stocking supplier — overlapping suppliers are each charged, so a
salt stocked twice is double-counted. -/
theorem C2_medicine_cost_charges_every_stocking_supplier
    (salts : List String) (combo : List Shop) :
    comboMedicineCost salts combo =
      (salts.map (fun salt => perSaltCharge salt combo)).sum :=
  comboMedicineCost_eq_perSaltCharge salts combo

/-- Witness for C2: with `shopA` and `shopAB` both stocking "A", the total
medicine cost charges both (10 + 4), once per stocking supplier. -/
theorem C2_medicine_cost_charges_every_stocking_supplier_witness :
    comboMedicineCost ["A"] [shopA, shopAB] =
        (["A"].map (fun salt => perSaltCharge salt [shopA, shopAB])).sum ∧
      comboMedicineCost ["A"] [shopA, shopAB] = 14 :=
  ⟨C2_medicine_cost_charges_every_stocking_supplier ["A"] [shopA, shopAB],
    by norm_num [comboMedicineCost, shopMedicineCost, shopItems, shopA, shopAB,
      List.lookup, List.filterMap_cons, List.filterMap_nil]⟩

/-! ## C3: not-fulfillable failure -/

theorem attachRanks_length (b : Bool) (i : Nat) (l : List RankedOption) :
    (attachRanks b i l).length = l.length := by
  induction l generalizing i with
  | nil => rfl
  | cons o t ih => simp [attachRanks, ih]

theorem calculate_delivery_ok_options (shops : List Shop)
    (request : DeliveryRequest) (resp : DeliveryResponse)
    (h : calculate_delivery shops request = Except.ok resp) :
    resp.optimal_options_ranked =
        attachRanks request.convenience_factor 0 (sortedOptions shops request)
      ∧ get_fulfillment_combinations shops request.prescription_salts ≠ [] := by
  by_cases hg : get_fulfillment_combinations shops request.prescription_salts = []
  · simp [calculate_delivery, hg] at h
  · simp only [calculate_delivery, hg, if_false, Except.ok.injEq] at h
    exact ⟨by rw [← h], hg⟩

/-- C3: the endpoint fails with the 404 "no shop combinations" error exactly
when the feasibility search returns no covering combination; a successful
response never carries an empty option list, and a salt stocked by no shop
of the catalog forces the failure. -/
theorem C3_error_iff_no_combination (shops : List Shop) (request : DeliveryRequest) :
    (calculate_delivery shops request =
          Except.error (404, "No shop combinations found to fulfill prescription.")
        ↔ get_fulfillment_combinations shops request.prescription_salts = [])
    ∧ (∀ resp, calculate_delivery shops request = Except.ok resp →
        resp.optimal_options_ranked ≠ [])
    ∧ ((∃ salt ∈ request.prescription_salts,
          ∀ shop ∈ shops, salt ∉ shop.inventory.map (fun p => p.1)) →
        calculate_delivery shops request =
          Except.error (404, "No shop combinations found to fulfill prescription.")) := by
  have herr : calculate_delivery shops request =
        Except.error (404, "No shop combinations found to fulfill prescription.")
      ↔ get_fulfillment_combinations shops request.prescription_salts = [] := by
    by_cases h : get_fulfillment_combinations shops request.prescription_salts = []
    · simp [calculate_delivery, h]
    · simp [calculate_delivery, h]
  refine ⟨herr, ?_, ?_⟩
  · intro resp hok hnil
    obtain ⟨hopts, hne⟩ := calculate_delivery_ok_options shops request resp hok
    apply hne
    have hlen := congrArg List.length hopts
    rw [hnil] at hlen
    simp only [List.length_nil, attachRanks_length, sortedOptions,
      List.length_mergeSort, pricedOptions, List.length_map] at hlen
    exact List.eq_nil_of_length_eq_zero hlen.symm
  · rintro ⟨salt, hsalt, hnone⟩
    apply herr.mpr
    rw [List.eq_nil_iff_forall_not_mem]
    intro c hc
    obtain ⟨hsub, -, hcov⟩ :=
      (mem_get_fulfillment_combinations shops request.prescription_salts c).mp hc
    have hmem := hcov salt hsalt
    simp only [comboCoveredSalts, List.mem_flatMap] at hmem
    obtain ⟨shop, hshop, hkey⟩ := hmem
    exact hnone shop (hsub.subset hshop) hkey

/-- Witness for C3: a request for a salt stocked by no shop of the one-shop
catalog produces the 404 failure. -/
theorem C3_error_iff_no_combination_witness :
    calculate_delivery [shopB]
        { prescription_salts := ["A"], user_location := locO,
          demand_factor := 0, convenience_factor := true } =
      Except.error (404, "No shop combinations found to fulfill prescription.") :=
  (C3_error_iff_no_combination [shopB]
      { prescription_salts := ["A"], user_location := locO,
        demand_factor := 0, convenience_factor := true }).1.mpr (by decide)

/-! ## C4: behavior at an empty requirement list -/

/-- The request with no prescribed salts. -/
def reqEmpty : DeliveryRequest :=
  { prescription_salts := [], user_location := locO, demand_factor := 0,
    convenience_factor := true }

/-- C4 fails on the code: the endpoint performs no input validation.  With
an empty requirement list every non-empty subset trivially covers, so the
request succeeds and ranks every non-empty subset of the catalog (here the
single subset of a one-shop catalog) instead of being rejected. -/
theorem C4_empty_requirement_list_is_accepted :
    ∃ resp, calculate_delivery [shopA] reqEmpty = Except.ok resp ∧
      resp.optimal_options_ranked.length = 1 := by
  have hg : get_fulfillment_combinations [shopA] reqEmpty.prescription_salts
      = [[shopA]] := by decide
  have hne : get_fulfillment_combinations [shopA] reqEmpty.prescription_salts
      ≠ [] := by
    rw [hg]
    simp
  refine ⟨{ msg := "✅ Optimal fulfillment scenarios calculated and ranked."
            prescription_salts := reqEmpty.prescription_salts
            optimal_options_ranked :=
              attachRanks reqEmpty.convenience_factor 0
                (sortedOptions [shopA] reqEmpty) }, ?_, ?_⟩
  · simp [calculate_delivery, hne]
  · simp only [attachRanks_length, sortedOptions, List.length_mergeSort,
      pricedOptions, List.length_map, hg, List.length_cons, List.length_nil]

/-! ## C6: per-supplier delivery cost -/

theorem calculate_distance_km_nonneg (loc1 loc2 : Location) :
    0 ≤ calculate_distance_km loc1 loc2 :=
  mul_nonneg (Real.sqrt_nonneg _) (by norm_num)

/-- C6: the per-supplier delivery cost is `baseCost + distanceKm * 5 +
demandFactor`; the distance is the flat-earth Euclidean distance in degrees
scaled by 111 and is non-negative; and the combination's delivery total
sums this cost exactly once per supplier, independent of the items each
supplier covers. -/
theorem C6_per_supplier_delivery_cost :
    (∀ b d f : ℝ, calculate_delivery_cost b d f = b + d * 5 + f)
    ∧ (∀ loc1 loc2 : Location, calculate_distance_km loc1 loc2 =
        Real.sqrt (((loc1.latitude : ℝ) - (loc2.latitude : ℝ)) ^ 2 +
          ((loc1.longitude : ℝ) - (loc2.longitude : ℝ)) ^ 2) * 111)
    ∧ (∀ loc1 loc2 : Location, 0 ≤ calculate_distance_km loc1 loc2)
    ∧ (∀ (salts : List String) (loc : Location) (df : ℚ) (combo : List Shop),
        (priceCombo salts loc df combo).total_delivery_cost =
          round2 ((combo.map (fun shop =>
            calculate_delivery_cost (shop.base_cost : ℝ)
              (calculate_distance_km shop.location loc) (df : ℝ))).sum)) :=
  ⟨fun _ _ _ => rfl, fun _ _ => rfl, calculate_distance_km_nonneg,
    fun _ _ _ _ => rfl⟩

/-- Witness for C6 at concrete inputs: the cost formula and the
non-negativity of a concrete distance. -/
theorem C6_per_supplier_delivery_cost_witness :
    calculate_delivery_cost 2 3 4 = 2 + 3 * 5 + 4 ∧
      0 ≤ calculate_distance_km locO locO :=
  ⟨C6_per_supplier_delivery_cost.1 2 3 4,
    C6_per_supplier_delivery_cost.2.2.1 locO locO⟩

/-! ## C9: duplicated salts in the requirement list -/

theorem all_dedup (l : List String) (p : String → Bool) :
    l.dedup.all p = l.all p := by
  rw [Bool.eq_iff_iff]
  simp only [List.all_eq_true, List.mem_dedup]

theorem gfc_dedup (shops : List Shop) (salts : List String) :
    get_fulfillment_combinations shops salts.dedup
      = get_fulfillment_combinations shops salts := by
  unfold get_fulfillment_combinations
  congr 1
  funext r
  congr 1
  funext combo
  exact all_dedup salts (fun salt => (comboCoveredSalts combo).contains salt)

theorem comboMedicineCost_replicate (k : Nat) (salt : String) (combo : List Shop) :
    comboMedicineCost (List.replicate k salt) combo =
      (k : ℚ) * perSaltCharge salt combo := by
  rw [comboMedicineCost_eq_perSaltCharge, List.map_replicate,
    List.sum_replicate, nsmul_eq_mul]

theorem comboMedicineCost_append (s t : List String) (combo : List Shop) :
    comboMedicineCost (s ++ t) combo =
      comboMedicineCost s combo + comboMedicineCost t combo := by
  rw [comboMedicineCost_eq_perSaltCharge, comboMedicineCost_eq_perSaltCharge,
    comboMedicineCost_eq_perSaltCharge, List.map_append, List.sum_append]

/-- C9: feasibility ignores duplicates (deduplicating the requirement list
leaves the returned combinations unchanged), while pricing iterates the
request list per occurrence: a salt requested `k` times charges every
stocking supplier `k` times, and the medicine cost is additive over
concatenation of requirement lists. -/
theorem C9_duplicate_salts_charge_per_occurrence
    (shops : List Shop) (salts : List String) (k : Nat) (salt : String)
    (combo : List Shop) (s t : List String) :
    get_fulfillment_combinations shops salts.dedup
        = get_fulfillment_combinations shops salts
      ∧ comboMedicineCost (List.replicate k salt) combo =
          (k : ℚ) * perSaltCharge salt combo
      ∧ comboMedicineCost (s ++ t) combo =
          comboMedicineCost s combo + comboMedicineCost t combo :=
  ⟨gfc_dedup shops salts, comboMedicineCost_replicate k salt combo,
    comboMedicineCost_append s t combo⟩

/-- Witness for C9 at a concrete catalog: deduplicating the request does
not change the search, and a doubled salt doubles the charge. -/
theorem C9_duplicate_salts_charge_per_occurrence_witness :
    get_fulfillment_combinations [shopA] (["A", "A"].dedup)
        = get_fulfillment_combinations [shopA] ["A", "A"]
      ∧ comboMedicineCost (List.replicate 2 "A") [shopA] =
          (2 : ℚ) * perSaltCharge "A" [shopA] :=
  ⟨(C9_duplicate_salts_charge_per_occurrence [shopA] ["A", "A"] 2 "A" [shopA]
      [] []).1,
    (C9_duplicate_salts_charge_per_occurrence [shopA] ["A", "A"] 2 "A" [shopA]
      [] []).2.1⟩

/-! ## C7: monetary non-negativity -/

theorem round2_nonneg {x : ℝ} (hx : 0 ≤ x) : 0 ≤ round2 x := by
  unfold round2
  apply div_nonneg _ (by norm_num : (0:ℝ) ≤ 100)
  have h : (0:ℤ) ≤ round (x * 100) := by
    rw [round_eq]
    apply Int.le_floor.mpr
    push_cast
    linarith
  exact_mod_cast h

theorem shopDeliveryCost_nonneg {loc : Location} {df : ℚ} {shop : Shop}
    (hb : 0 ≤ shop.base_cost) (hdf : 0 ≤ df) :
    0 ≤ shopDeliveryCost loc df shop := by
  unfold shopDeliveryCost calculate_delivery_cost
  have h1 : 0 ≤ calculate_distance_km shop.location loc :=
    calculate_distance_km_nonneg _ _
  have h2 := mul_nonneg h1 (by norm_num : (0:ℝ) ≤ 5)
  have hb' : (0:ℝ) ≤ (shop.base_cost : ℝ) := by exact_mod_cast hb
  have hdf' : (0:ℝ) ≤ (df : ℝ) := by exact_mod_cast hdf
  linarith

theorem shopMedicineCost_nonneg {salts : List String} {shop : Shop}
    (h : ∀ p ∈ shop.inventory, 0 ≤ p.2.price) :
    0 ≤ shopMedicineCost salts shop := by
  apply List.sum_nonneg
  intro x hx
  simp only [List.mem_map, shopItems, List.mem_filterMap] at hx
  obtain ⟨it, ⟨salt, hsalt, hlook⟩, rfl⟩ := hx
  rw [Option.map_eq_some'] at hlook
  obtain ⟨e, hl, rfl⟩ := hlook
  obtain ⟨l₁, l₂, heq, -⟩ := List.lookup_eq_some_iff.mp hl
  have hmem : (salt, e) ∈ shop.inventory := by
    rw [heq]
    simp
  exact h _ hmem

theorem comboMedicineCost_nonneg {salts : List String} {combo : List Shop}
    (h : ∀ shop ∈ combo, ∀ p ∈ shop.inventory, 0 ≤ p.2.price) :
    0 ≤ comboMedicineCost salts combo := by
  apply List.sum_nonneg
  intro x hx
  simp only [List.mem_map, comboMedicineCost] at hx
  obtain ⟨shop, hshop, rfl⟩ := hx
  exact shopMedicineCost_nonneg (h shop hshop)

theorem comboDeliveryCost_nonneg {loc : Location} {df : ℚ} {combo : List Shop}
    (h : ∀ shop ∈ combo, 0 ≤ shop.base_cost) (hdf : 0 ≤ df) :
    0 ≤ comboDeliveryCost loc df combo := by
  apply List.sum_nonneg
  intro x hx
  simp only [List.mem_map, comboDeliveryCost] at hx
  obtain ⟨shop, hshop, rfl⟩ := hx
  exact shopDeliveryCost_nonneg (h shop hshop) hdf

theorem mem_attachRanks {b : Bool} {l : List RankedOption} {o : RankedOption} :
    ∀ {i : Nat}, o ∈ attachRanks b i l →
      ∃ p ∈ l, ∃ j, o = { p with rank := j, priority_reason := reasonStr b } := by
  induction l with
  | nil =>
    intro i h
    simp [attachRanks] at h
  | cons q t ih =>
    intro i h
    simp only [attachRanks, List.mem_cons] at h
    rcases h with rfl | h
    · exact ⟨q, List.mem_cons_self q t, i + 1, rfl⟩
    · obtain ⟨p, hp, j, rfl⟩ := ih h
      exact ⟨p, List.mem_cons_of_mem q hp, j, rfl⟩

/-- C7: when every base handling cost and unit price of the catalog and the
request's demand factor are non-negative, every option of a successful
response reports a non-negative total medicine cost, total delivery cost
and grand total. -/
theorem C7_monetary_nonneg (shops : List Shop) (request : DeliveryRequest)
    (hshops : ∀ shop ∈ shops,
      0 ≤ shop.base_cost ∧ ∀ p ∈ shop.inventory, 0 ≤ p.2.price)
    (hdf : 0 ≤ request.demand_factor) :
    (respOptions (calculate_delivery shops request)).Forall (fun o =>
      0 ≤ o.total_medicine_cost ∧ 0 ≤ o.total_delivery_cost ∧
        0 ≤ o.grand_total) := by
  rw [List.forall_iff_forall_mem]
  intro o ho
  cases hcd : calculate_delivery shops request with
  | error e =>
    rw [hcd] at ho
    simp [respOptions] at ho
  | ok resp =>
    rw [hcd] at ho
    obtain ⟨hopts, -⟩ := calculate_delivery_ok_options shops request resp hcd
    rw [respOptions, hopts] at ho
    obtain ⟨p, hp, j, rfl⟩ := mem_attachRanks ho
    rw [sortedOptions, List.mem_mergeSort, pricedOptions, List.mem_map] at hp
    obtain ⟨c, hc, rfl⟩ := hp
    obtain ⟨hsub, -, -⟩ := (mem_get_fulfillment_combinations shops
      request.prescription_salts c).mp hc
    have hbase : ∀ shop ∈ c, 0 ≤ shop.base_cost :=
      fun shop hs => (hshops shop (hsub.subset hs)).1
    have hprice : ∀ shop ∈ c, ∀ p ∈ shop.inventory, 0 ≤ p.2.price :=
      fun shop hs => (hshops shop (hsub.subset hs)).2
    have hmed : (0:ℝ) ≤
        ((comboMedicineCost request.prescription_salts c : ℚ) : ℝ) := by
      exact_mod_cast comboMedicineCost_nonneg hprice
    have hdel : 0 ≤
        comboDeliveryCost request.user_location request.demand_factor c :=
      comboDeliveryCost_nonneg hbase hdf
    refine ⟨round2_nonneg hmed, round2_nonneg hdel, round2_nonneg ?_⟩
    linarith

/-- Witness for C7 at the concrete three-shop catalog: all prices and base
costs are non-negative, so all reported totals are. -/
theorem C7_monetary_nonneg_witness :
    (respOptions (calculate_delivery [shopA, shopB, shopAB] reqA)).Forall
      (fun o => 0 ≤ o.total_medicine_cost ∧ 0 ≤ o.total_delivery_cost ∧
        0 ≤ o.grand_total) :=
  C7_monetary_nonneg [shopA, shopB, shopAB] reqA (by decide) (by decide)

/-! ## C8: the convenience flag only selects the rationale string -/

theorem attachRanks_map_stripReason (b b' : Bool) (l : List RankedOption) :
    ∀ i, (attachRanks b i l).map stripReason
      = (attachRanks b' i l).map stripReason := by
  induction l with
  | nil => intro i; rfl
  | cons q t ih =>
    intro i
    simp only [attachRanks, List.map_cons]
    rw [ih (i + 1)]
    rfl

theorem reason_attachRanks {b : Bool} {l : List RankedOption} {o : RankedOption} :
    ∀ {i : Nat}, o ∈ attachRanks b i l → o.priority_reason = reasonStr b := by
  induction l with
  | nil =>
    intro i h
    simp [attachRanks] at h
  | cons q t ih =>
    intro i h
    simp only [attachRanks, List.mem_cons] at h
    rcases h with rfl | h
    · rfl
    · exact ih h

/-- C8: two requests identical except for `convenience_factor` produce
results identical in every field once the rationale strings are erased,
and the flag's only visible effect is the selected rationale text. -/
theorem C8_convenience_flag_only_selects_reason
    (shops : List Shop) (salts : List String) (loc : Location) (df : ℚ)
    (b b' : Bool) :
    stripReasons (calculate_delivery shops
        { prescription_salts := salts, user_location := loc,
          demand_factor := df, convenience_factor := b })
      = stripReasons (calculate_delivery shops
        { prescription_salts := salts, user_location := loc,
          demand_factor := df, convenience_factor := b' })
    ∧ (respOptions (calculate_delivery shops
        { prescription_salts := salts, user_location := loc,
          demand_factor := df, convenience_factor := b })).Forall (fun o =>
        o.priority_reason =
          if b then "Fewest shops + reasonable cost" else "Lowest cost") := by
  constructor
  · by_cases hg : get_fulfillment_combinations shops salts = []
    · simp [calculate_delivery, hg, stripReasons]
    · simp only [calculate_delivery, hg, if_false, stripReasons]
      rw [attachRanks_map_stripReason b b']
      rfl
  · rw [List.forall_iff_forall_mem]
    intro o ho
    by_cases hg : get_fulfillment_combinations shops salts = []
    · simp [calculate_delivery, hg, respOptions] at ho
    · simp only [calculate_delivery, hg, if_false, respOptions] at ho
      rw [reason_attachRanks ho]
      cases b <;> rfl

/-- Witness for C8: with the one-shop catalog, flipping the flag leaves the
stripped results equal. -/
theorem C8_convenience_flag_only_selects_reason_witness :
    stripReasons (calculate_delivery [shopA]
        { prescription_salts := ["A"], user_location := locO,
          demand_factor := 0, convenience_factor := true })
      = stripReasons (calculate_delivery [shopA]
        { prescription_salts := ["A"], user_location := locO,
          demand_factor := 0, convenience_factor := false }) :=
  (C8_convenience_flag_only_selects_reason [shopA] ["A"] locO 0 true false).1

/-! ## C5: ranking is the stable sort by (num_shops, grand_total) -/

theorem optionLE_total (a b : RankedOption) : optionLE a b || optionLE b a := by
  unfold optionLE keyLE
  simp only [Bool.or_eq_true, decide_eq_true_eq]
  rcases lt_trichotomy a.num_shops b.num_shops with h | h | h
  · exact Or.inl (Or.inl h)
  · rcases le_total a.grand_total b.grand_total with h2 | h2
    · exact Or.inl (Or.inr ⟨h, h2⟩)
    · exact Or.inr (Or.inr ⟨h.symm, h2⟩)
  · exact Or.inr (Or.inl h)

theorem optionLE_trans (a b c : RankedOption) :
    optionLE a b → optionLE b c → optionLE a c := by
  unfold optionLE keyLE
  simp only [decide_eq_true_eq]
  rintro (h1 | ⟨h1, h1'⟩) (h2 | ⟨h2, h2'⟩)
  · exact Or.inl (h1.trans h2)
  · exact Or.inl (h2 ▸ h1)
  · exact Or.inl (h1 ▸ h2)
  · exact Or.inr ⟨h1.trans h2, h1'.trans h2'⟩

theorem filter_mergeSort_eq_filter (l : List RankedOption)
    (p : RankedOption → Bool) (hp : ∀ a b, p a → p b → optionLE a b) :
    (l.mergeSort optionLE).filter p = l.filter p := by
  have hsub : (l.filter p).Sublist l := List.filter_sublist l
  have hpair : (l.filter p).Pairwise (fun a b => optionLE a b) :=
    List.pairwise_of_forall_mem_list (fun a ha b hb =>
      hp a b (List.of_mem_filter ha) (List.of_mem_filter hb))
  have h1 : (l.filter p).Sublist (l.mergeSort optionLE) :=
    List.sublist_mergeSort optionLE_trans optionLE_total hpair hsub
  have h2 : (l.filter p).Sublist ((l.mergeSort optionLE).filter p) := by
    have h3 := h1.filter p
    rwa [List.filter_eq_self.mpr
      (fun a ha => List.of_mem_filter ha)] at h3
  apply (h2.eq_of_length ?_).symm
  exact ((List.mergeSort_perm l optionLE).filter p).length_eq.symm

/-- C5: the returned option list is the stable sort of the priced
candidates by the lexicographic key (supplier count, grand total): the
sorted list is pairwise non-decreasing in the key, entries with any fixed
key keep their enumeration order from the priced list, and a successful
response reports exactly this sorted list (with ranks attached). -/
theorem C5_output_is_stable_sort_by_key
    (shops : List Shop) (request : DeliveryRequest) :
    ((sortedOptions shops request).Pairwise (fun a b =>
        keyLE (a.num_shops, a.grand_total) (b.num_shops, b.grand_total)))
    ∧ (∀ (n : Nat) (q : ℝ),
        (sortedOptions shops request).filter
            (fun o => decide (o.num_shops = n ∧ o.grand_total = q))
          = (pricedOptions shops request).filter
            (fun o => decide (o.num_shops = n ∧ o.grand_total = q)))
    ∧ (∀ resp, calculate_delivery shops request = Except.ok resp →
        resp.optimal_options_ranked =
          attachRanks request.convenience_factor 0
            (sortedOptions shops request)) := by
  refine ⟨?_, ?_, ?_⟩
  · have h := List.sorted_mergeSort optionLE_trans optionLE_total
      (pricedOptions shops request)
    apply h.imp
    intro a b hab
    simpa only [optionLE, decide_eq_true_eq] using hab
  · intro n q
    apply filter_mergeSort_eq_filter
    intro a b ha hb
    rw [decide_eq_true_eq] at ha hb
    unfold optionLE keyLE
    rw [decide_eq_true_eq]
    exact Or.inr ⟨by rw [ha.1, hb.1], by rw [ha.2, hb.2]⟩
  · intro resp h
    exact (calculate_delivery_ok_options shops request resp h).1

/-- Witness for C5: the sorted options of a concrete two-shop request are
pairwise non-decreasing in the ranking key. -/
theorem C5_output_is_stable_sort_by_key_witness :
    ((sortedOptions [shopA, shopAB] reqA).Pairwise (fun a b =>
      keyLE (a.num_shops, a.grand_total) (b.num_shops, b.grand_total))) :=
  (C5_output_is_stable_sort_by_key [shopA, shopAB] reqA).1

/-! ## C10: aggregates are rounded once, from unrounded values -/

theorem mem_attachRanks_of_mem {b : Bool} :
    ∀ {l : List RankedOption} {p : RankedOption}, p ∈ l → ∀ i, ∃ j,
      { p with rank := j, priority_reason := reasonStr b } ∈ attachRanks b i l := by
  intro l
  induction l with
  | nil =>
    intro p hp
    cases hp
  | cons q t ih =>
    intro p hp i
    rcases List.mem_cons.mp hp with rfl | hmem
    · exact ⟨i + 1, List.mem_cons_self _ _⟩
    · obtain ⟨j, hj⟩ := ih hmem (i + 1)
      exact ⟨j, List.mem_cons_of_mem _ hj⟩

theorem respOptions_eq_attachRanks {shops : List Shop} {request : DeliveryRequest}
    (hne : get_fulfillment_combinations shops request.prescription_salts ≠ []) :
    respOptions (calculate_delivery shops request)
      = attachRanks request.convenience_factor 0 (sortedOptions shops request) := by
  simp [calculate_delivery, hne, respOptions]

theorem exists_mem_respOptions_of_mem_gfc (shops : List Shop)
    (request : DeliveryRequest) {c : List Shop}
    (hc : c ∈ get_fulfillment_combinations shops request.prescription_salts) :
    ∃ o ∈ respOptions (calculate_delivery shops request),
      stripMeta o = priceCombo request.prescription_salts
        request.user_location request.demand_factor c := by
  have hne := List.ne_nil_of_mem hc
  rw [respOptions_eq_attachRanks hne]
  have hp : priceCombo request.prescription_salts request.user_location
      request.demand_factor c ∈ sortedOptions shops request := by
    rw [sortedOptions, List.mem_mergeSort, pricedOptions, List.mem_map]
    exact ⟨c, hc, rfl⟩
  obtain ⟨j, hj⟩ := mem_attachRanks_of_mem hp 0
  exact ⟨_, hj, rfl⟩

theorem distance_km_self (loc : Location) : calculate_distance_km loc loc = 0 := by
  simp [calculate_distance_km]

/-- C10: for every combination, the reported delivery total is the 2-dp
rounding of the sum of unrounded per-supplier delivery costs and the grand
total is the 2-dp rounding of unrounded medicine plus delivery totals,
while the per-supplier `delivery_cost` fields are rounded one by one; in
the concrete two-shop catalog, summing the displayed per-supplier costs
differs from the displayed delivery total. -/
theorem C10_totals_rounded_from_unrounded :
    (∀ (salts : List String) (loc : Location) (df : ℚ) (combo : List Shop),
        (priceCombo salts loc df combo).total_delivery_cost
            = round2 (comboDeliveryCost loc df combo)
          ∧ (priceCombo salts loc df combo).grand_total
            = round2 (((comboMedicineCost salts combo : ℚ) : ℝ)
                + comboDeliveryCost loc df combo)
          ∧ (priceCombo salts loc df combo).fulfillment_details.map
              (fun d => d.delivery_cost)
            = combo.map (fun shop => round2 (shopDeliveryCost loc df shop)))
      ∧ (∃ o ∈ respOptions (calculate_delivery [shopP1, shopP2] reqA),
          (o.fulfillment_details.map (fun d => d.delivery_cost)).sum
            ≠ o.total_delivery_cost) := by
  constructor
  · intro salts loc df combo
    refine ⟨rfl, rfl, ?_⟩
    rw [priceCombo, List.map_map]
    rfl
  · have hc : [shopP1, shopP2] ∈
        get_fulfillment_combinations [shopP1, shopP2] reqA.prescription_salts := by
      apply (mem_get_fulfillment_combinations _ _ _).mpr
      refine ⟨List.Sublist.refl _, by simp, ?_⟩
      intro salt hsalt
      have hA : salt = "A" := by simpa [reqA] using hsalt
      subst hA
      simp [comboCoveredSalts, shopP1, shopP2]
    obtain ⟨o, ho, hstrip⟩ :=
      exists_mem_respOptions_of_mem_gfc [shopP1, shopP2] reqA hc
    refine ⟨o, ho, ?_⟩
    have hdet := congrArg RankedOption.fulfillment_details hstrip
    have htot := congrArg RankedOption.total_delivery_cost hstrip
    dsimp only [stripMeta] at hdet htot
    rw [hdet, htot]
    have hd1 : shopDeliveryCost reqA.user_location reqA.demand_factor shopP1
        = 1 / 250 := by
      simp [shopDeliveryCost, calculate_delivery_cost, distance_km_self,
        shopP1, reqA]
    have hd2 : shopDeliveryCost reqA.user_location reqA.demand_factor shopP2
        = 1 / 250 := by
      simp [shopDeliveryCost, calculate_delivery_cost, distance_km_self,
        shopP2, reqA]
    have hr0 : round2 ((1:ℝ) / 250) = 0 := by
      rw [round2, round_eq]
      norm_num
    have hrs : round2 ((1:ℝ) / 250 + (1 / 250 + 0)) = 1 / 100 := by
      rw [round2, round_eq]
      norm_num
    simp only [priceCombo, comboDeliveryCost, List.map_cons, List.map_nil,
      List.sum_cons, List.sum_nil, hd1, hd2, hr0, hrs]
    norm_num

/-- Witness for C10 at a concrete combination: the delivery total is the
rounding of the unrounded sum. -/
theorem C10_totals_rounded_from_unrounded_witness :
    (priceCombo ["A"] locO 0 [shopA]).total_delivery_cost
      = round2 (comboDeliveryCost locO 0 [shopA]) :=
  (C10_totals_rounded_from_unrounded.1 ["A"] locO 0 [shopA]).1

end Delivery
